import Mathlib

/-!
Verification of the heteroscedasticity-test calibration engine
(`examples/heteroscedasticity_calibration.py`).

The script's external collaborators are modelled abstractly:

* `draw : ℕ → ℕ → ℝ` models numpy's seeded standard-normal stream:
  `draw seed i` is the `i`-th value of `np.random.randn` after
  `np.random.seed(seed)`.  The global-RNG aspect is modelled separately by
  stateful wrappers (`generateNullWithState`, `generateTrumpetWithState`)
  taking an incoming RNG state that `np.random.seed` overrides.
* `fit : List ℝ → List ℝ → ℝ → Except String M` models
  `NadarayaWatson(bandwidth=·).fit(X, y)`, fallible, with opaque model
  type `M`.
* `htest : M → List ℝ → List ℝ → String → ℝ → Except String Bool` models
  `heteroscedasticity_test(model, X, y, test=·, alpha=·).is_heteroscedastic`,
  fallible.

Rates and thresholds are modelled over `ℚ` (the Python floats at the
relevant boundary values coincide with the exact rationals); datasets are
over `ℝ` with the exact `Real.sin` mean.
-/

namespace HeteroCalib

/-- `np.linspace(0, 1, n)` at index `i`: for `n ≥ 2` the points
`i / (n - 1)`; `linspace(0,1,1) = [0.0]`, `linspace(0,1,0) = []`. -/
noncomputable def linspacePoint (n i : ℕ) : ℝ :=
  if n ≤ 1 then 0 else (i : ℝ) / ((n : ℝ) - 1)

/-- `np.linspace(0, 1, n)`: the `n` evenly spaced grid points on `[0,1]`. -/
noncomputable def linspace (n : ℕ) : List ℝ :=
  (List.range n).map (linspacePoint n)

/-- `generate_nonlinear_homoscedastic(n, seed)`:
`np.random.seed(seed); X = np.linspace(0,1,n);
y = sin(2πX) + np.random.randn(n) * 0.2`.  Returns `(X, y)`. -/
noncomputable def generate_nonlinear_homoscedastic (draw : ℕ → ℕ → ℝ)
    (n seed : ℕ) : List ℝ × List ℝ :=
  let X := linspace n
  let noise := (List.range n).map (fun i => draw seed i)
  (X, List.zipWith (fun x e => Real.sin (2 * Real.pi * x) + e * 0.2) X noise)

/-- `generate_trumpet(n, seed, strength)`:
`np.random.seed(seed); X = np.linspace(0,1,n);
sigma = 0.1 + strength * X; y = sin(2πX) + np.random.randn(n) * sigma`. -/
noncomputable def generate_trumpet (draw : ℕ → ℕ → ℝ)
    (n seed : ℕ) (strength : ℝ) : List ℝ × List ℝ :=
  let X := linspace n
  let noise := (List.range n).map (fun i => draw seed i)
  (X, List.zipWith (fun x e => Real.sin (2 * Real.pi * x) + e * (0.1 + strength * x))
    X noise)

/-- The Null generator run against the process-wide RNG: it receives the
incoming global state `rngState`, immediately overrides it via
`np.random.seed(seed)`, draws, and hands back the advanced state
(`advance st n` abstracts the state after `randn(n)` from state `st`). -/
noncomputable def generateNullWithState (draw : ℕ → ℕ → ℝ)
    (advance : ℕ → ℕ → ℕ) (n seed rngState : ℕ) : (List ℝ × List ℝ) × ℕ :=
  let st := seed
  (generate_nonlinear_homoscedastic draw n st, advance st n)

/-- The Alternative generator run against the process-wide RNG; see
`generateNullWithState`. -/
noncomputable def generateTrumpetWithState (draw : ℕ → ℕ → ℝ)
    (advance : ℕ → ℕ → ℕ) (n seed : ℕ) (strength : ℝ) (rngState : ℕ) :
    (List ℝ × List ℝ) × ℕ :=
  let st := seed
  (generate_trumpet draw n st strength, advance st n)

/-- The `CalibrationResult` dataclass. -/
structure CalibrationResult where
  test_name : String
  nominal_alpha : ℝ
  empirical_size : ℚ
  size_calibrated : Bool
  power : ℚ
  power_adequate : Bool

/-- `0.03 <= empirical_size <= 0.10` (the "generous range"). -/
def sizeCalibratedBand (s : ℚ) : Bool :=
  decide ((3 / 100 : ℚ) ≤ s ∧ s ≤ 1 / 10)

/-- `0.04 <= empirical_size <= 0.07` (the "PhD standard" / "excellent"
band, computed only for display). -/
def sizeExcellentBand (s : ℚ) : Bool :=
  decide ((4 / 100 : ℚ) ≤ s ∧ s ≤ 7 / 100)

/-- `power >= 0.80`. -/
def powerAdequateFlag (p : ℚ) : Bool :=
  decide ((4 / 5 : ℚ) ≤ p)

/-- Seed used by the size arm at trial `t`: `seed=trial`. -/
def sizeArmSeed (t : ℕ) : ℕ := t

/-- Seed used by the power arm at trial `t`: `seed=trial + 100000`. -/
def powerArmSeed (t : ℕ) : ℕ := t + 100000

/-- One size-arm trial: fit outside any `try`, the test call inside
`try`; a test failure prints `Warning: Trial {trial} failed: {e}`
(modelled as the pair `(t, e)` appended to the log) and does not bump the
positive count. -/
def sizeStep {M : Type} (fit : List ℝ → List ℝ → ℝ → Except String M)
    (htest : M → List ℝ → List ℝ → String → ℝ → Except String Bool)
    (test_name : String) (alpha bandwidth : ℝ) (Dof : ℕ → List ℝ × List ℝ)
    (acc : ℕ × List (ℕ × String)) (t : ℕ) :
    Except String (ℕ × List (ℕ × String)) :=
  match fit (Dof t).1 (Dof t).2 bandwidth with
  | .error e => .error e
  | .ok m =>
    match htest m (Dof t).1 (Dof t).2 test_name alpha with
    | .ok b => .ok (acc.1 + (if b then 1 else 0), acc.2)
    | .error e => .ok (acc.1, acc.2 ++ [(t, e)])

/-- One power-arm trial: fit outside any `try`; a test failure is
swallowed (`except Exception: pass`), leaving count and log unchanged. -/
def powerStep {M : Type} (fit : List ℝ → List ℝ → ℝ → Except String M)
    (htest : M → List ℝ → List ℝ → String → ℝ → Except String Bool)
    (test_name : String) (alpha bandwidth : ℝ) (Dof : ℕ → List ℝ × List ℝ)
    (acc : ℕ × List (ℕ × String)) (t : ℕ) :
    Except String (ℕ × List (ℕ × String)) :=
  match fit (Dof t).1 (Dof t).2 bandwidth with
  | .error e => .error e
  | .ok m =>
    match htest m (Dof t).1 (Dof t).2 test_name alpha with
    | .ok b => .ok (acc.1 + (if b then 1 else 0), acc.2)
    | .error _ => .ok (acc.1, acc.2)

/-- One sweep trial: nothing is caught, any failure propagates. -/
def sweepStep {M : Type} (fit : List ℝ → List ℝ → ℝ → Except String M)
    (htest : M → List ℝ → List ℝ → String → ℝ → Except String Bool)
    (test_name : String) (alpha bandwidth : ℝ) (Dof : ℕ → List ℝ × List ℝ)
    (acc : ℕ) (t : ℕ) : Except String ℕ :=
  match fit (Dof t).1 (Dof t).2 bandwidth with
  | .error e => .error e
  | .ok m =>
    match htest m (Dof t).1 (Dof t).2 test_name alpha with
    | .ok b => .ok (acc + (if b then 1 else 0))
    | .error e => .error e

/-- The size arm of `calibrate_test`: `n_trials` trials over
homoscedastic data with `seed=trial`, tallying false positives and the
emitted per-trial failure warnings. -/
noncomputable def runSizeArm {M : Type}
    (fit : List ℝ → List ℝ → ℝ → Except String M)
    (htest : M → List ℝ → List ℝ → String → ℝ → Except String Bool)
    (draw : ℕ → ℕ → ℝ) (test_name : String) (n_samples n_trials : ℕ)
    (alpha bandwidth : ℝ) : Except String (ℕ × List (ℕ × String)) :=
  (List.range n_trials).foldlM
    (sizeStep fit htest test_name alpha bandwidth
      (fun t => generate_nonlinear_homoscedastic draw n_samples (sizeArmSeed t)))
    (0, [])

/-- The power arm of `calibrate_test`: `n_trials` trials over trumpet
data with `seed=trial + 100000`, `strength=1.0`, tallying true positives;
test failures are silently swallowed. -/
noncomputable def runPowerArm {M : Type}
    (fit : List ℝ → List ℝ → ℝ → Except String M)
    (htest : M → List ℝ → List ℝ → String → ℝ → Except String Bool)
    (draw : ℕ → ℕ → ℝ) (test_name : String) (n_samples n_trials : ℕ)
    (alpha bandwidth : ℝ) : Except String (ℕ × List (ℕ × String)) :=
  (List.range n_trials).foldlM
    (powerStep fit htest test_name alpha bandwidth
      (fun t => generate_trumpet draw n_samples (powerArmSeed t) 1))
    (0, [])

/-- `calibrate_test(test_name, n_samples, n_trials, alpha, bandwidth)`:
runs the size arm then the power arm, forms
`empirical_size = false_positives / n_trials`,
`power = true_positives / n_trials`, classifies both, and returns the
`CalibrationResult` together with the failure warnings emitted along the
way.  An exception escaping a trial (in this script only `fit` can raise
uncaught) aborts the whole call. -/
noncomputable def calibrate_test {M : Type}
    (fit : List ℝ → List ℝ → ℝ → Except String M)
    (htest : M → List ℝ → List ℝ → String → ℝ → Except String Bool)
    (draw : ℕ → ℕ → ℝ) (test_name : String) (n_samples n_trials : ℕ)
    (alpha bandwidth : ℝ) :
    Except String (CalibrationResult × List (ℕ × String)) :=
  match runSizeArm fit htest draw test_name n_samples n_trials alpha bandwidth with
  | .error e => .error e
  | .ok (fp, warns) =>
    match runPowerArm fit htest draw test_name n_samples n_trials alpha bandwidth with
    | .error e => .error e
    | .ok (tp, pwarns) =>
      let empirical_size : ℚ := (fp : ℚ) / (n_trials : ℚ)
      let power : ℚ := (tp : ℚ) / (n_trials : ℚ)
      .ok (⟨test_name, alpha, empirical_size, sizeCalibratedBand empirical_size,
            power, powerAdequateFlag power⟩, warns ++ pwarns)

/-- The detection tally of one sweep point of `power_curve`:
`strength == 0` routes through the Null generator, any other strength
through the trumpet generator; nothing is caught. -/
noncomputable def sweepDetections {M : Type}
    (fit : List ℝ → List ℝ → ℝ → Except String M)
    (htest : M → List ℝ → List ℝ → String → ℝ → Except String Bool)
    (draw : ℕ → ℕ → ℝ) (test_name : String) (strength : ℚ)
    (n_samples n_trials : ℕ) (alpha bandwidth : ℝ) : Except String ℕ :=
  (List.range n_trials).foldlM
    (sweepStep fit htest test_name alpha bandwidth
      (fun t =>
        if strength = 0 then generate_nonlinear_homoscedastic draw n_samples t
        else generate_trumpet draw n_samples t (strength : ℝ)))
    0

/-- The swept strengths `[0.0, 0.25, 0.5, 0.75, 1.0, 1.5, 2.0]`. -/
def sweepStrengths : List ℚ := [0, 1 / 4, 1 / 2, 3 / 4, 1, 3 / 2, 2]

/-- `power_curve(test_name)`: for each strength in `sweepStrengths`, with
`n_samples = 200`, `n_trials = 200`, `alpha = 0.05`, `bandwidth = 0.1`,
the pair (strength, detections / n_trials). -/
noncomputable def power_curve {M : Type}
    (fit : List ℝ → List ℝ → ℝ → Except String M)
    (htest : M → List ℝ → List ℝ → String → ℝ → Except String Bool)
    (draw : ℕ → ℕ → ℝ) (test_name : String) : Except String (List (ℚ × ℚ)) :=
  sweepStrengths.mapM (fun s =>
    (sweepDetections fit htest draw test_name s 200 200 0.05 0.1).map
      (fun d => (s, (d : ℚ) / 200)))

/-- The test identifiers calibrated by `run_full_calibration`. -/
def calibrationTests : List String := ["breusch_pagan", "white", "dette_munk_wagner"]

/-- `run_full_calibration()`: calibrates each test in `calibrationTests`
with `n_samples=200`, `n_trials=500` (and the default `alpha=0.05`,
`bandwidth=0.1`), collecting the results in order. -/
noncomputable def run_full_calibration {M : Type}
    (fit : List ℝ → List ℝ → ℝ → Except String M)
    (htest : M → List ℝ → List ℝ → String → ℝ → Except String Bool)
    (draw : ℕ → ℕ → ℝ) : Except String (List CalibrationResult) :=
  calibrationTests.foldlM
    (fun acc test_name =>
      (calibrate_test fit htest draw test_name 200 500 0.05 0.1).map
        (fun rc => acc ++ [rc.1]))
    []

/-- The tests passing both criteria
(`[r for r in results if r.size_calibrated and r.power_adequate]`). -/
def passingTests (results : List CalibrationResult) : List CalibrationResult :=
  results.filter (fun r => r.size_calibrated && r.power_adequate)

/-- Python's `max(xs, key=key)`: the first element attaining the maximal
key (later elements replace the champion only on a strictly larger key);
`none` on the empty list (where Python raises). -/
def pythonMax {α : Type} (key : α → ℚ) : List α → Option α
  | [] => none
  | x :: xs => some (xs.foldl (fun b r => if key b < key r then r else b) x)

/-- `max(passing_tests, key=lambda r: r.power - r.empirical_size)`. -/
def bestTest (results : List CalibrationResult) : Option CalibrationResult :=
  pythonMax (fun r => r.power - r.empirical_size) (passingTests results)

/-- `[r for r in results if not r.size_calibrated]`, the oversized
diagnostic group reported when no test passes both criteria. -/
def oversizedTests (results : List CalibrationResult) : List CalibrationResult :=
  results.filter (fun r => !r.size_calibrated)

/-! ### Per-trial observables used to characterize the loops. -/

/-- Whether a trial on dataset `D` reports a rejection; a failing fit or
test yields `false` (the per-trial verdict as tallied under the
calibration path's failure policy). -/
def trialPositive {M : Type} (fit : List ℝ → List ℝ → ℝ → Except String M)
    (htest : M → List ℝ → List ℝ → String → ℝ → Except String Bool)
    (test_name : String) (alpha bandwidth : ℝ) (D : List ℝ × List ℝ) : Bool :=
  match fit D.1 D.2 bandwidth with
  | .error _ => false
  | .ok m =>
    match htest m D.1 D.2 test_name alpha with
    | .error _ => false
    | .ok b => b

/-- The diagnostic a size-arm trial `t` on dataset `D` emits: `(t, e)`
when the fit succeeds but the test raises `e`, nothing otherwise. -/
def trialWarn {M : Type} (fit : List ℝ → List ℝ → ℝ → Except String M)
    (htest : M → List ℝ → List ℝ → String → ℝ → Except String Bool)
    (test_name : String) (alpha bandwidth : ℝ) (D : List ℝ × List ℝ)
    (t : ℕ) : Option (ℕ × String) :=
  match fit D.1 D.2 bandwidth with
  | .error _ => none
  | .ok m =>
    match htest m D.1 D.2 test_name alpha with
    | .error e => some (t, e)
    | .ok _ => none

/-- Both the fit and the test step on dataset `D` return normally. -/
def trialOk {M : Type} (fit : List ℝ → List ℝ → ℝ → Except String M)
    (htest : M → List ℝ → List ℝ → String → ℝ → Except String Bool)
    (test_name : String) (alpha bandwidth : ℝ) (D : List ℝ × List ℝ) : Prop :=
  ∃ m b, fit D.1 D.2 bandwidth = .ok m ∧
    htest m D.1 D.2 test_name alpha = .ok b

/-! ### Characterizations of the three trial loops. -/

/-- `pure` in the `Except` monad is `Except.ok`. -/
lemma except_pure_eq_ok {ε α : Type} (a : α) : (pure a : Except ε α) = .ok a := rfl

/-- Binding an `Except.error` propagates the error. -/
lemma except_bind_error {ε α β : Type} (e : ε) (f : α → Except ε β) :
    ((Except.error e : Except ε α) >>= f) = .error e := rfl

/-- Binding an `Except.ok` applies the continuation. -/
lemma except_bind_ok {ε α β : Type} (a : α) (f : α → Except ε β) :
    ((Except.ok a : Except ε α) >>= f) = f a := rfl

/-- Mapping over an `Except.ok`. -/
lemma except_map_ok {ε α β : Type} (f : α → β) (a : α) :
    (Except.ok a : Except ε α).map f = .ok (f a) := rfl

/-- Mapping over an `Except.error`. -/
lemma except_map_error {ε α β : Type} (f : α → β) (e : ε) :
    (Except.error e : Except ε α).map f = .error e := rfl

section FoldLemmas

variable {M : Type} (fit : List ℝ → List ℝ → ℝ → Except String M)
variable (htest : M → List ℝ → List ℝ → String → ℝ → Except String Bool)
variable (test_name : String) (alpha bandwidth : ℝ) (Dof : ℕ → List ℝ × List ℝ)

/-- If the fit capability succeeds on every listed trial, the size-arm
fold completes, adds to the tally exactly the count of positive verdicts
(failed tests counting as non-rejections), and appends one `(t, e)`
diagnostic per trial whose test step raised `e`. -/
lemma sizeFold_char (ts : List ℕ)
    (hfit : ∀ t ∈ ts, ∃ m, fit (Dof t).1 (Dof t).2 bandwidth = .ok m) :
    ∀ acc : ℕ × List (ℕ × String),
      ts.foldlM (sizeStep fit htest test_name alpha bandwidth Dof) acc =
        .ok (acc.1 + ts.countP
              (fun t => trialPositive fit htest test_name alpha bandwidth (Dof t)),
             acc.2 ++ ts.filterMap
              (fun t => trialWarn fit htest test_name alpha bandwidth (Dof t) t)) := by
  induction ts with
  | nil => intro acc; simp [List.foldlM_nil, except_pure_eq_ok]
  | cons t ts ih =>
    intro acc
    obtain ⟨m, hm⟩ := hfit t (List.mem_cons_self t ts)
    have htl : ∀ t ∈ ts, ∃ m, fit (Dof t).1 (Dof t).2 bandwidth = .ok m :=
      fun u hu => hfit u (List.mem_cons_of_mem t hu)
    rw [List.foldlM_cons]
    cases ht : htest m (Dof t).1 (Dof t).2 test_name alpha with
    | ok b =>
      have hstep : sizeStep fit htest test_name alpha bandwidth Dof acc t =
          .ok (acc.1 + (if b then 1 else 0), acc.2) := by
        simp [sizeStep, hm, ht]
      rw [hstep]
      show ts.foldlM (sizeStep fit htest test_name alpha bandwidth Dof) _ = _
      rw [ih htl]
      have hpos : trialPositive fit htest test_name alpha bandwidth (Dof t) = b := by
        simp [trialPositive, hm, ht]
      have hwarn : trialWarn fit htest test_name alpha bandwidth (Dof t) t = none := by
        simp [trialWarn, hm, ht]
      simp only [List.countP_cons, List.filterMap_cons, hpos, hwarn]
      cases b <;> simp <;> omega
    | error e =>
      have hstep : sizeStep fit htest test_name alpha bandwidth Dof acc t =
          .ok (acc.1, acc.2 ++ [(t, e)]) := by
        simp [sizeStep, hm, ht]
      rw [hstep]
      show ts.foldlM (sizeStep fit htest test_name alpha bandwidth Dof) _ = _
      rw [ih htl]
      have hpos : trialPositive fit htest test_name alpha bandwidth (Dof t) = false := by
        simp [trialPositive, hm, ht]
      have hwarn : trialWarn fit htest test_name alpha bandwidth (Dof t) t =
          some (t, e) := by
        simp [trialWarn, hm, ht]
      simp only [List.countP_cons, List.filterMap_cons, hpos, hwarn]
      simp

/-- If the fit capability succeeds on every listed trial, the power-arm
fold completes, tallies exactly the positive verdicts, and emits no
diagnostic (test failures are silently swallowed). -/
lemma powerFold_char (ts : List ℕ)
    (hfit : ∀ t ∈ ts, ∃ m, fit (Dof t).1 (Dof t).2 bandwidth = .ok m) :
    ∀ acc : ℕ × List (ℕ × String),
      ts.foldlM (powerStep fit htest test_name alpha bandwidth Dof) acc =
        .ok (acc.1 + ts.countP
              (fun t => trialPositive fit htest test_name alpha bandwidth (Dof t)),
             acc.2) := by
  induction ts with
  | nil => intro acc; simp [List.foldlM_nil, except_pure_eq_ok]
  | cons t ts ih =>
    intro acc
    obtain ⟨m, hm⟩ := hfit t (List.mem_cons_self t ts)
    have htl : ∀ t ∈ ts, ∃ m, fit (Dof t).1 (Dof t).2 bandwidth = .ok m :=
      fun u hu => hfit u (List.mem_cons_of_mem t hu)
    rw [List.foldlM_cons]
    cases ht : htest m (Dof t).1 (Dof t).2 test_name alpha with
    | ok b =>
      have hstep : powerStep fit htest test_name alpha bandwidth Dof acc t =
          .ok (acc.1 + (if b then 1 else 0), acc.2) := by
        simp [powerStep, hm, ht]
      rw [hstep]
      show ts.foldlM (powerStep fit htest test_name alpha bandwidth Dof) _ = _
      rw [ih htl]
      have hpos : trialPositive fit htest test_name alpha bandwidth (Dof t) = b := by
        simp [trialPositive, hm, ht]
      simp only [List.countP_cons, hpos]
      cases b <;> simp <;> omega
    | error e =>
      have hstep : powerStep fit htest test_name alpha bandwidth Dof acc t =
          .ok (acc.1, acc.2) := by
        simp [powerStep, hm, ht]
      rw [hstep]
      show ts.foldlM (powerStep fit htest test_name alpha bandwidth Dof) _ = _
      rw [ih htl]
      have hpos : trialPositive fit htest test_name alpha bandwidth (Dof t) = false := by
        simp [trialPositive, hm, ht]
      simp only [List.countP_cons, hpos]
      simp

/-- If every listed trial's fit and test steps return normally, the sweep
fold completes and tallies exactly the positive verdicts. -/
lemma sweepFold_char (ts : List ℕ)
    (hok : ∀ t ∈ ts, trialOk fit htest test_name alpha bandwidth (Dof t)) :
    ∀ a : ℕ,
      ts.foldlM (sweepStep fit htest test_name alpha bandwidth Dof) a =
        .ok (a + ts.countP
          (fun t => trialPositive fit htest test_name alpha bandwidth (Dof t))) := by
  induction ts with
  | nil => intro a; simp [List.foldlM_nil, except_pure_eq_ok]
  | cons t ts ih =>
    intro a
    obtain ⟨m, b, hm, ht⟩ := hok t (List.mem_cons_self t ts)
    have htl : ∀ t ∈ ts, trialOk fit htest test_name alpha bandwidth (Dof t) :=
      fun u hu => hok u (List.mem_cons_of_mem t hu)
    rw [List.foldlM_cons]
    have hstep : sweepStep fit htest test_name alpha bandwidth Dof a t =
        .ok (a + (if b then 1 else 0)) := by
      simp [sweepStep, hm, ht]
    rw [hstep]
    show ts.foldlM (sweepStep fit htest test_name alpha bandwidth Dof) _ = _
    rw [ih htl]
    have hpos : trialPositive fit htest test_name alpha bandwidth (Dof t) = b := by
      simp [trialPositive, hm, ht]
    simp only [List.countP_cons, hpos]
    cases b <;> simp <;> omega

/-- Conversely, a sweep fold that returns a tally caught nothing: every
listed trial's fit and test steps must have returned normally. -/
lemma sweepFold_all_ok (ts : List ℕ) (a d : ℕ)
    (h : ts.foldlM (sweepStep fit htest test_name alpha bandwidth Dof) a =
      .ok d) :
    ∀ t ∈ ts, trialOk fit htest test_name alpha bandwidth (Dof t) := by
  induction ts generalizing a with
  | nil => intro t ht; cases ht
  | cons t ts ih =>
    intro u hu
    rw [List.foldlM_cons] at h
    cases hm : fit (Dof t).1 (Dof t).2 bandwidth with
    | error e =>
      rw [show sweepStep fit htest test_name alpha bandwidth Dof a t =
        .error e by simp [sweepStep, hm]] at h
      rw [except_bind_error] at h
      exact Except.noConfusion h
    | ok m =>
      cases ht : htest m (Dof t).1 (Dof t).2 test_name alpha with
      | error e =>
        rw [show sweepStep fit htest test_name alpha bandwidth Dof a t =
          .error e by simp [sweepStep, hm, ht]] at h
        rw [except_bind_error] at h
        exact Except.noConfusion h
      | ok b =>
        rw [show sweepStep fit htest test_name alpha bandwidth Dof a t =
            .ok (a + (if b then 1 else 0)) by simp [sweepStep, hm, ht]] at h
        rcases List.mem_cons.mp hu with hue | hut
        · exact hue ▸ ⟨m, b, hm, ht⟩
        · exact ih _ h u hut

/-- Whatever happens per trial, a completed size-arm fold tallies at most
one positive per listed trial. -/
lemma sizeFold_le (ts : List ℕ) :
    ∀ (acc : ℕ × List (ℕ × String)) (fp : ℕ) (w : List (ℕ × String)),
      ts.foldlM (sizeStep fit htest test_name alpha bandwidth Dof) acc =
        .ok (fp, w) → fp ≤ acc.1 + ts.length := by
  induction ts with
  | nil =>
    intro acc fp w h
    rw [List.foldlM_nil, except_pure_eq_ok] at h
    injection h with h'
    subst h'
    simp
  | cons t ts ih =>
    intro acc fp w h
    rw [List.foldlM_cons] at h
    cases hm : fit (Dof t).1 (Dof t).2 bandwidth with
    | error e =>
      rw [show sizeStep fit htest test_name alpha bandwidth Dof acc t =
        .error e by simp [sizeStep, hm]] at h
      rw [except_bind_error] at h
      exact Except.noConfusion h
    | ok m =>
      cases ht : htest m (Dof t).1 (Dof t).2 test_name alpha with
      | ok b =>
        rw [show sizeStep fit htest test_name alpha bandwidth Dof acc t =
            .ok (acc.1 + (if b then 1 else 0), acc.2)
          by simp [sizeStep, hm, ht]] at h
        have hle := ih _ _ _ h
        have hb : (if b then 1 else 0) ≤ 1 := by cases b <;> simp
        simp only [List.length_cons] at hle ⊢
        omega
      | error e =>
        rw [show sizeStep fit htest test_name alpha bandwidth Dof acc t =
            .ok (acc.1, acc.2 ++ [(t, e)]) by simp [sizeStep, hm, ht]] at h
        have hle := ih _ _ _ h
        simp only [List.length_cons] at hle ⊢
        omega

/-- Whatever happens per trial, a completed power-arm fold tallies at
most one positive per listed trial. -/
lemma powerFold_le (ts : List ℕ) :
    ∀ (acc : ℕ × List (ℕ × String)) (fp : ℕ) (w : List (ℕ × String)),
      ts.foldlM (powerStep fit htest test_name alpha bandwidth Dof) acc =
        .ok (fp, w) → fp ≤ acc.1 + ts.length := by
  induction ts with
  | nil =>
    intro acc fp w h
    rw [List.foldlM_nil, except_pure_eq_ok] at h
    injection h with h'
    subst h'
    simp
  | cons t ts ih =>
    intro acc fp w h
    rw [List.foldlM_cons] at h
    cases hm : fit (Dof t).1 (Dof t).2 bandwidth with
    | error e =>
      rw [show powerStep fit htest test_name alpha bandwidth Dof acc t =
        .error e by simp [powerStep, hm]] at h
      rw [except_bind_error] at h
      exact Except.noConfusion h
    | ok m =>
      cases ht : htest m (Dof t).1 (Dof t).2 test_name alpha with
      | ok b =>
        rw [show powerStep fit htest test_name alpha bandwidth Dof acc t =
            .ok (acc.1 + (if b then 1 else 0), acc.2)
          by simp [powerStep, hm, ht]] at h
        have hle := ih _ _ _ h
        have hb : (if b then 1 else 0) ≤ 1 := by cases b <;> simp
        simp only [List.length_cons] at hle ⊢
        omega
      | error e =>
        rw [show powerStep fit htest test_name alpha bandwidth Dof acc t =
            .ok (acc.1, acc.2) by simp [powerStep, hm, ht]] at h
        have hle := ih _ _ _ h
        simp only [List.length_cons] at hle ⊢
        omega

/-- A size-arm fold that returned a tally never hit a fit failure (a fit
failure is not inside the `try` and would have aborted the fold). -/
lemma sizeFold_all_fit_ok (ts : List ℕ) :
    ∀ (acc : ℕ × List (ℕ × String)) (fp : ℕ) (w : List (ℕ × String)),
      ts.foldlM (sizeStep fit htest test_name alpha bandwidth Dof) acc =
        .ok (fp, w) →
      ∀ t ∈ ts, ∃ m, fit (Dof t).1 (Dof t).2 bandwidth = .ok m := by
  induction ts with
  | nil => intro acc fp w h t ht; cases ht
  | cons t ts ih =>
    intro acc fp w h u hu
    rw [List.foldlM_cons] at h
    cases hm : fit (Dof t).1 (Dof t).2 bandwidth with
    | error e =>
      rw [show sizeStep fit htest test_name alpha bandwidth Dof acc t =
        .error e by simp [sizeStep, hm]] at h
      rw [except_bind_error] at h
      exact Except.noConfusion h
    | ok m =>
      rcases List.mem_cons.mp hu with hue | hut
      · exact hue ▸ ⟨m, hm⟩
      · cases ht2 : htest m (Dof t).1 (Dof t).2 test_name alpha with
        | ok b =>
          rw [show sizeStep fit htest test_name alpha bandwidth Dof acc t =
              .ok (acc.1 + (if b then 1 else 0), acc.2)
            by simp [sizeStep, hm, ht2]] at h
          exact ih _ _ _ h u hut
        | error e =>
          rw [show sizeStep fit htest test_name alpha bandwidth Dof acc t =
              .ok (acc.1, acc.2 ++ [(t, e)]) by simp [sizeStep, hm, ht2]] at h
          exact ih _ _ _ h u hut

/-- A power-arm fold that returned a tally never hit a fit failure. -/
lemma powerFold_all_fit_ok (ts : List ℕ) :
    ∀ (acc : ℕ × List (ℕ × String)) (fp : ℕ) (w : List (ℕ × String)),
      ts.foldlM (powerStep fit htest test_name alpha bandwidth Dof) acc =
        .ok (fp, w) →
      ∀ t ∈ ts, ∃ m, fit (Dof t).1 (Dof t).2 bandwidth = .ok m := by
  induction ts with
  | nil => intro acc fp w h t ht; cases ht
  | cons t ts ih =>
    intro acc fp w h u hu
    rw [List.foldlM_cons] at h
    cases hm : fit (Dof t).1 (Dof t).2 bandwidth with
    | error e =>
      rw [show powerStep fit htest test_name alpha bandwidth Dof acc t =
        .error e by simp [powerStep, hm]] at h
      rw [except_bind_error] at h
      exact Except.noConfusion h
    | ok m =>
      rcases List.mem_cons.mp hu with hue | hut
      · exact hue ▸ ⟨m, hm⟩
      · cases ht2 : htest m (Dof t).1 (Dof t).2 test_name alpha with
        | ok b =>
          rw [show powerStep fit htest test_name alpha bandwidth Dof acc t =
              .ok (acc.1 + (if b then 1 else 0), acc.2)
            by simp [powerStep, hm, ht2]] at h
          exact ih _ _ _ h u hut
        | error e =>
          rw [show powerStep fit htest test_name alpha bandwidth Dof acc t =
              .ok (acc.1, acc.2) by simp [powerStep, hm, ht2]] at h
          exact ih _ _ _ h u hut

end FoldLemmas

/-- Unpacking a successful `calibrate_test`: both arms completed, and
the result's fields are exactly the classified tallies. -/
lemma calibrate_test_ok {M : Type}
    (fit : List ℝ → List ℝ → ℝ → Except String M)
    (htest : M → List ℝ → List ℝ → String → ℝ → Except String Bool)
    (draw : ℕ → ℕ → ℝ) (test_name : String) (n_samples n_trials : ℕ)
    (alpha bandwidth : ℝ) (r : CalibrationResult) (w : List (ℕ × String))
    (h : calibrate_test fit htest draw test_name n_samples n_trials alpha bandwidth =
      .ok (r, w)) :
    ∃ fp warns tp pwarns,
      runSizeArm fit htest draw test_name n_samples n_trials alpha bandwidth =
        .ok (fp, warns) ∧
      runPowerArm fit htest draw test_name n_samples n_trials alpha bandwidth =
        .ok (tp, pwarns) ∧
      r = ⟨test_name, alpha, (fp : ℚ) / (n_trials : ℚ),
            sizeCalibratedBand ((fp : ℚ) / (n_trials : ℚ)),
            (tp : ℚ) / (n_trials : ℚ),
            powerAdequateFlag ((tp : ℚ) / (n_trials : ℚ))⟩ ∧
      w = warns ++ pwarns := by
  unfold calibrate_test at h
  cases hs : runSizeArm fit htest draw test_name n_samples n_trials alpha bandwidth with
  | error e => rw [hs] at h; simp at h
  | ok p =>
    obtain ⟨fp, warns⟩ := p
    rw [hs] at h
    cases hp : runPowerArm fit htest draw test_name n_samples n_trials alpha bandwidth with
    | error e => rw [hp] at h; simp at h
    | ok q =>
      obtain ⟨tp, pwarns⟩ := q
      rw [hp] at h
      simp at h
      exact ⟨fp, warns, tp, pwarns, rfl, rfl, h.1.symm, h.2.symm⟩

/-! ### Pointwise descriptions of the generated datasets. -/

/-- Zipping two maps over the same list is a map of the combined
function. -/
lemma zipWith_map_map {α β γ δ : Type} (f : β → γ → δ) (g : α → β) (k : α → γ) :
    ∀ l : List α, List.zipWith f (l.map g) (l.map k) =
      l.map (fun x => f (g x) (k x)) := by
  intro l
  induction l with
  | nil => rfl
  | cons x xs ih => simp [ih]

/-- The Null responses, pointwise. -/
lemma genNull_get (draw : ℕ → ℕ → ℝ) (n seed i : ℕ) (hi : i < n) :
    (generate_nonlinear_homoscedastic draw n seed).2.get? i =
      some (Real.sin (2 * Real.pi * linspacePoint n i) + draw seed i * 0.2) := by
  show (List.zipWith _ (linspace n) _).get? i = _
  rw [linspace, zipWith_map_map, List.get?_map, List.get?_range hi]
  rfl

/-- The Alternative (trumpet) responses, pointwise. -/
lemma genTrumpet_get (draw : ℕ → ℕ → ℝ) (n seed i : ℕ) (strength : ℝ)
    (hi : i < n) :
    (generate_trumpet draw n seed strength).2.get? i =
      some (Real.sin (2 * Real.pi * linspacePoint n i) +
        draw seed i * (0.1 + strength * linspacePoint n i)) := by
  show (List.zipWith _ (linspace n) _).get? i = _
  rw [linspace, zipWith_map_map, List.get?_map, List.get?_range hi]
  rfl

/-- The grid point, explicitly, away from the degenerate sizes. -/
lemma linspace_get (n i : ℕ) (hn : 2 ≤ n) (hi : i < n) :
    (linspace n).get? i = some ((i : ℝ) / ((n : ℝ) - 1)) := by
  rw [linspace, List.get?_map, List.get?_range hi]
  simp [linspacePoint]
  omega

/-- Grid points are nonnegative. -/
lemma linspacePoint_nonneg (n i : ℕ) : 0 ≤ linspacePoint n i := by
  unfold linspacePoint
  split
  · exact le_refl 0
  · rename_i hn
    have h2 : (2 : ℝ) ≤ (n : ℝ) := by exact_mod_cast (by omega : 2 ≤ n)
    apply div_nonneg (Nat.cast_nonneg i)
    linarith

/-- Claim C1: the Null generator returns the `n`-point uniform grid on
`[0,1]` as covariates and `sin(2πx) + 0.2·ε` as responses, the
Alternative generator uses the identical grid and mean with pointwise
noise scale `0.1 + strength·x`, and Alternative(0) is not the Null
scenario (its noise floor is 0.1, not 0.2). -/
theorem claim_C1 (draw : ℕ → ℕ → ℝ) (n seed : ℕ) (strength : ℝ) (i : ℕ)
    (hn : 2 ≤ n) (hi : i < n) :
    ((generate_nonlinear_homoscedastic draw n seed).1 = linspace n ∧
      (generate_trumpet draw n seed strength).1 = linspace n ∧
      (linspace n).length = n ∧
      (linspace n).get? i = some ((i : ℝ) / ((n : ℝ) - 1))) ∧
    (generate_nonlinear_homoscedastic draw n seed).2.get? i =
      some (Real.sin (2 * Real.pi * ((i : ℝ) / ((n : ℝ) - 1))) +
        draw seed i * 0.2) ∧
    (generate_trumpet draw n seed strength).2.get? i =
      some (Real.sin (2 * Real.pi * ((i : ℝ) / ((n : ℝ) - 1))) +
        draw seed i * (0.1 + strength * ((i : ℝ) / ((n : ℝ) - 1)))) ∧
    ∃ (dr : ℕ → ℕ → ℝ) (m sd : ℕ),
      generate_trumpet dr m sd 0 ≠ generate_nonlinear_homoscedastic dr m sd := by
  have hpt : linspacePoint n i = (i : ℝ) / ((n : ℝ) - 1) := by
    simp [linspacePoint]
    omega
  refine ⟨⟨rfl, rfl, by simp [linspace], linspace_get n i hn hi⟩, ?_, ?_, ?_⟩
  · rw [genNull_get draw n seed i hi, hpt]
  · rw [genTrumpet_get draw n seed i strength hi, hpt]
  · refine ⟨fun _ _ => 1, 1, 0, fun hEq => ?_⟩
    have h2 := congrArg Prod.snd hEq
    simp [generate_trumpet, generate_nonlinear_homoscedastic, linspace,
      linspacePoint, List.range_succ] at h2
    norm_num [Real.sin_zero] at h2

/-- Concrete instance of claim C1 at `n = 2`, `i = 1`. -/
theorem claim_C1_witness :
    (((generate_nonlinear_homoscedastic (fun _ _ => 1) 2 0).1 = linspace 2 ∧
      (generate_trumpet (fun _ _ => 1) 2 0 1).1 = linspace 2 ∧
      (linspace 2).length = 2 ∧
      (linspace 2).get? 1 = some (((1 : ℕ) : ℝ) / (((2 : ℕ) : ℝ) - 1))) ∧
    (generate_nonlinear_homoscedastic (fun _ _ => 1) 2 0).2.get? 1 =
      some (Real.sin (2 * Real.pi * (((1 : ℕ) : ℝ) / (((2 : ℕ) : ℝ) - 1))) +
        1 * 0.2) ∧
    (generate_trumpet (fun _ _ => 1) 2 0 1).2.get? 1 =
      some (Real.sin (2 * Real.pi * (((1 : ℕ) : ℝ) / (((2 : ℕ) : ℝ) - 1))) +
        1 * (0.1 + 1 * (((1 : ℕ) : ℝ) / (((2 : ℕ) : ℝ) - 1)))) ∧
    ∃ (dr : ℕ → ℕ → ℝ) (m sd : ℕ),
      generate_trumpet dr m sd 0 ≠ generate_nonlinear_homoscedastic dr m sd) :=
  claim_C1 (fun _ _ => 1) 2 0 1 1 (by norm_num) (by norm_num)

/-! ### Concrete capability instances used by the witnesses. -/

/-- A regression capability that always fits (with a trivial model). -/
def trivialFit : List ℝ → List ℝ → ℝ → Except String Unit :=
  fun _ _ _ => .ok ()

/-- A hypothesis-test capability that never rejects and never raises. -/
def trivialTest : Unit → List ℝ → List ℝ → String → ℝ → Except String Bool :=
  fun _ _ _ _ _ => .ok false

/-- The all-zero standard-normal stream. -/
noncomputable def zeroDraw : ℕ → ℕ → ℝ := fun _ _ => 0

/-- The `CalibrationResult` produced by a run in which no trial rejects. -/
def nullResult (test_name : String) : CalibrationResult :=
  ⟨test_name, 0.05, 0, false, 0, false⟩

/-- A regression capability that always raises. -/
def errorFit : List ℝ → List ℝ → ℝ → Except String Unit :=
  fun _ _ _ => .error "fit failed"

/-- A hypothesis-test capability that always raises. -/
def errorTest : Unit → List ℝ → List ℝ → String → ℝ → Except String Bool :=
  fun _ _ _ _ _ => .error "boom"

/-- The loose band as a proposition. -/
lemma sizeCalibratedBand_iff (s : ℚ) :
    sizeCalibratedBand s = true ↔ ((3 / 100 : ℚ) ≤ s ∧ s ≤ 1 / 10) := by
  simp [sizeCalibratedBand]

/-- Falling outside the loose band, as a proposition. -/
lemma sizeCalibratedBand_eq_false_iff (s : ℚ) :
    sizeCalibratedBand s = false ↔ ¬((3 / 100 : ℚ) ≤ s ∧ s ≤ 1 / 10) := by
  simp [sizeCalibratedBand]

/-- Falling outside the excellent band, as a proposition. -/
lemma sizeExcellentBand_eq_false_iff (s : ℚ) :
    sizeExcellentBand s = false ↔ ¬((4 / 100 : ℚ) ≤ s ∧ s ≤ 7 / 100) := by
  simp [sizeExcellentBand]

/-- The power threshold as a proposition. -/
lemma powerAdequateFlag_iff (p : ℚ) :
    powerAdequateFlag p = true ↔ (4 / 5 : ℚ) ≤ p := by
  simp [powerAdequateFlag]

/-- Failing the power threshold, as a proposition. -/
lemma powerAdequateFlag_eq_false_iff (p : ℚ) :
    powerAdequateFlag p = false ↔ ¬((4 / 5 : ℚ) ≤ p) := by
  simp [powerAdequateFlag]

/-- An empirical size of zero is below the loose band. -/
lemma sizeCalibratedBand_zero : sizeCalibratedBand 0 = false :=
  (sizeCalibratedBand_eq_false_iff 0).mpr (by norm_num)

/-- A power of zero is inadequate. -/
lemma powerAdequateFlag_zero : powerAdequateFlag 0 = false :=
  (powerAdequateFlag_eq_false_iff 0).mpr (by norm_num)

/-- The trivial capabilities never report a rejection. -/
lemma trivialTest_positive (test_name : String) (alpha bandwidth : ℝ)
    (D : List ℝ × List ℝ) :
    trialPositive trivialFit trivialTest test_name alpha bandwidth D = false := rfl

/-- The trivial capabilities never emit a diagnostic. -/
lemma trivialTest_warn (test_name : String) (alpha bandwidth : ℝ)
    (D : List ℝ × List ℝ) (t : ℕ) :
    trialWarn trivialFit trivialTest test_name alpha bandwidth D t = none := rfl

/-- The size arm under the trivial capabilities: no positives, no log. -/
lemma trivial_runSizeArm (test_name : String) (n_samples n_trials : ℕ)
    (alpha bandwidth : ℝ) :
    runSizeArm trivialFit trivialTest zeroDraw test_name n_samples n_trials
      alpha bandwidth = .ok (0, []) := by
  have h := sizeFold_char trivialFit trivialTest test_name alpha bandwidth
    (fun t => generate_nonlinear_homoscedastic zeroDraw n_samples (sizeArmSeed t))
    (List.range n_trials) (fun t _ => ⟨(), rfl⟩) (0, [])
  have hfm : List.filterMap (fun t : ℕ => (none : Option (ℕ × String)))
      (List.range n_trials) = [] :=
    List.filterMap_eq_nil_iff.mpr (fun a _ => rfl)
  simp only [trivialTest_positive, trivialTest_warn, List.countP_false, hfm] at h
  simpa [runSizeArm] using h

/-- The power arm under the trivial capabilities: no positives, no log. -/
lemma trivial_runPowerArm (test_name : String) (n_samples n_trials : ℕ)
    (alpha bandwidth : ℝ) :
    runPowerArm trivialFit trivialTest zeroDraw test_name n_samples n_trials
      alpha bandwidth = .ok (0, []) := by
  have h := powerFold_char trivialFit trivialTest test_name alpha bandwidth
    (fun t => generate_trumpet zeroDraw n_samples (powerArmSeed t) 1)
    (List.range n_trials) (fun t _ => ⟨(), rfl⟩) (0, [])
  simp only [trivialTest_positive, List.countP_false] at h
  simpa [runPowerArm] using h

/-- Reassembling `calibrate_test` from its two completed arms. -/
lemma calibrate_test_eq {M : Type} (fit : List ℝ → List ℝ → ℝ → Except String M)
    (htest : M → List ℝ → List ℝ → String → ℝ → Except String Bool)
    (draw : ℕ → ℕ → ℝ) (test_name : String) (n_samples n_trials : ℕ)
    (alpha bandwidth : ℝ) (fp tp : ℕ) (warns pwarns : List (ℕ × String))
    (hs : runSizeArm fit htest draw test_name n_samples n_trials alpha bandwidth =
      .ok (fp, warns))
    (hp : runPowerArm fit htest draw test_name n_samples n_trials alpha bandwidth =
      .ok (tp, pwarns)) :
    calibrate_test fit htest draw test_name n_samples n_trials alpha bandwidth =
      .ok (⟨test_name, alpha, (fp : ℚ) / (n_trials : ℚ),
            sizeCalibratedBand ((fp : ℚ) / (n_trials : ℚ)),
            (tp : ℚ) / (n_trials : ℚ),
            powerAdequateFlag ((tp : ℚ) / (n_trials : ℚ))⟩,
           warns ++ pwarns) := by
  unfold calibrate_test
  rw [hs, hp]

/-- Under the trivial capabilities a calibration run returns the
all-zero result with an empty log. -/
lemma trivial_calibrate (test_name : String) (n_samples n_trials : ℕ)
    (bandwidth : ℝ) :
    calibrate_test trivialFit trivialTest zeroDraw test_name n_samples n_trials
      0.05 bandwidth = .ok (nullResult test_name, []) := by
  have h := calibrate_test_eq trivialFit trivialTest zeroDraw test_name
    n_samples n_trials 0.05 bandwidth 0 0 [] []
    (trivial_runSizeArm test_name n_samples n_trials 0.05 bandwidth)
    (trivial_runPowerArm test_name n_samples n_trials 0.05 bandwidth)
  simpa [nullResult, sizeCalibratedBand_zero, powerAdequateFlag_zero] using h

/-- Claim C2: in every returned `CalibrationResult`, `size_calibrated`
holds iff `0.03 ≤ empirical_size ≤ 0.10`, both boundaries inclusive
(`0.10` passes, `0.11` fails), and the flag is exactly the loose band —
the stricter 0.04–0.07 "excellent" band does not enter it. -/
theorem claim_C2 {M : Type} (fit : List ℝ → List ℝ → ℝ → Except String M)
    (htest : M → List ℝ → List ℝ → String → ℝ → Except String Bool)
    (draw : ℕ → ℕ → ℝ) (test_name : String) (n_samples n_trials : ℕ)
    (alpha bandwidth : ℝ) (r : CalibrationResult) (w : List (ℕ × String))
    (h : calibrate_test fit htest draw test_name n_samples n_trials alpha bandwidth =
      .ok (r, w)) :
    (r.size_calibrated = true ↔
      ((3 / 100 : ℚ) ≤ r.empirical_size ∧ r.empirical_size ≤ 1 / 10)) ∧
    (r.empirical_size = 1 / 10 → r.size_calibrated = true) ∧
    (r.empirical_size = 11 / 100 → r.size_calibrated = false) ∧
    r.size_calibrated = sizeCalibratedBand r.empirical_size ∧
    ∃ s : ℚ, sizeCalibratedBand s = true ∧ sizeExcellentBand s = false := by
  obtain ⟨fp, warns, tp, pwarns, hs, hp, hr, hw⟩ :=
    calibrate_test_ok fit htest draw test_name n_samples n_trials alpha bandwidth r w h
  subst hr
  refine ⟨?_, ?_, ?_, rfl,
    ⟨9 / 100, (sizeCalibratedBand_iff _).mpr (by norm_num),
      (sizeExcellentBand_eq_false_iff _).mpr (by norm_num)⟩⟩
  · exact sizeCalibratedBand_iff ((fp : ℚ) / (n_trials : ℚ))
  · intro he
    have he' : (fp : ℚ) / (n_trials : ℚ) = 1 / 10 := he
    show sizeCalibratedBand ((fp : ℚ) / (n_trials : ℚ)) = true
    rw [he']
    exact (sizeCalibratedBand_iff _).mpr (by norm_num)
  · intro he
    have he' : (fp : ℚ) / (n_trials : ℚ) = 11 / 100 := he
    show sizeCalibratedBand ((fp : ℚ) / (n_trials : ℚ)) = false
    rw [he']
    exact (sizeCalibratedBand_eq_false_iff _).mpr (by norm_num)

/-- Concrete instance of claim C2 on a run where no trial rejects. -/
theorem claim_C2_witness :
    ((nullResult "white").size_calibrated = true ↔
      ((3 / 100 : ℚ) ≤ (nullResult "white").empirical_size ∧
        (nullResult "white").empirical_size ≤ 1 / 10)) ∧
    ((nullResult "white").empirical_size = 1 / 10 →
      (nullResult "white").size_calibrated = true) ∧
    ((nullResult "white").empirical_size = 11 / 100 →
      (nullResult "white").size_calibrated = false) ∧
    (nullResult "white").size_calibrated =
      sizeCalibratedBand (nullResult "white").empirical_size ∧
    ∃ s : ℚ, sizeCalibratedBand s = true ∧ sizeExcellentBand s = false :=
  claim_C2 trivialFit trivialTest zeroDraw "white" 0 1 0.05 0.1
    (nullResult "white") [] (trivial_calibrate "white" 0 1 0.1)

/-- Claim C3: in every returned `CalibrationResult`, `power` is the
power-arm tally divided by `n_trials`, and `power_adequate` holds iff
`power ≥ 0.80`, boundary inclusive (`0.80` passes, `0.799` fails). -/
theorem claim_C3 {M : Type} (fit : List ℝ → List ℝ → ℝ → Except String M)
    (htest : M → List ℝ → List ℝ → String → ℝ → Except String Bool)
    (draw : ℕ → ℕ → ℝ) (test_name : String) (n_samples n_trials : ℕ)
    (alpha bandwidth : ℝ) (r : CalibrationResult) (w : List (ℕ × String))
    (h : calibrate_test fit htest draw test_name n_samples n_trials alpha bandwidth =
      .ok (r, w)) :
    (∃ tp pwarns,
      runPowerArm fit htest draw test_name n_samples n_trials alpha bandwidth =
        .ok (tp, pwarns) ∧ r.power = (tp : ℚ) / (n_trials : ℚ)) ∧
    (r.power_adequate = true ↔ (4 / 5 : ℚ) ≤ r.power) ∧
    (r.power = 4 / 5 → r.power_adequate = true) ∧
    (r.power = 799 / 1000 → r.power_adequate = false) := by
  obtain ⟨fp, warns, tp, pwarns, hs, hp, hr, hw⟩ :=
    calibrate_test_ok fit htest draw test_name n_samples n_trials alpha bandwidth r w h
  subst hr
  refine ⟨⟨tp, pwarns, hp, rfl⟩, ?_, ?_, ?_⟩
  · exact powerAdequateFlag_iff ((tp : ℚ) / (n_trials : ℚ))
  · intro he
    have he' : (tp : ℚ) / (n_trials : ℚ) = 4 / 5 := he
    show powerAdequateFlag ((tp : ℚ) / (n_trials : ℚ)) = true
    rw [he']
    exact (powerAdequateFlag_iff _).mpr (by norm_num)
  · intro he
    have he' : (tp : ℚ) / (n_trials : ℚ) = 799 / 1000 := he
    show powerAdequateFlag ((tp : ℚ) / (n_trials : ℚ)) = false
    rw [he']
    exact (powerAdequateFlag_eq_false_iff _).mpr (by norm_num)

/-- Concrete instance of claim C3 on a run where no trial rejects. -/
theorem claim_C3_witness :
    (∃ tp pwarns,
      runPowerArm trivialFit trivialTest zeroDraw "white" 0 1 0.05 0.1 =
        .ok (tp, pwarns) ∧
        (nullResult "white").power = (tp : ℚ) / ((1 : ℕ) : ℚ)) ∧
    ((nullResult "white").power_adequate = true ↔
      (4 / 5 : ℚ) ≤ (nullResult "white").power) ∧
    ((nullResult "white").power = 4 / 5 →
      (nullResult "white").power_adequate = true) ∧
    ((nullResult "white").power = 799 / 1000 →
      (nullResult "white").power_adequate = false) :=
  claim_C3 trivialFit trivialTest zeroDraw "white" 0 1 0.05 0.1
    (nullResult "white") [] (trivial_calibrate "white" 0 1 0.1)

/-- Claim C9: a completed calibration tallied each arm over exactly the
trials `0..n_trials-1`, each tally is at most `n_trials`, and the
returned `empirical_size` and `power` lie in `[0, 1]`. -/
theorem claim_C9 {M : Type} (fit : List ℝ → List ℝ → ℝ → Except String M)
    (htest : M → List ℝ → List ℝ → String → ℝ → Except String Bool)
    (draw : ℕ → ℕ → ℝ) (test_name : String) (n_samples n_trials : ℕ)
    (alpha bandwidth : ℝ) (r : CalibrationResult) (w : List (ℕ × String))
    (hn : 0 < n_trials)
    (h : calibrate_test fit htest draw test_name n_samples n_trials alpha bandwidth =
      .ok (r, w)) :
    (∃ fp warns,
      runSizeArm fit htest draw test_name n_samples n_trials alpha bandwidth =
        .ok (fp, warns) ∧
      fp = (List.range n_trials).countP
        (fun t => trialPositive fit htest test_name alpha bandwidth
          (generate_nonlinear_homoscedastic draw n_samples (sizeArmSeed t))) ∧
      fp ≤ n_trials ∧ r.empirical_size = (fp : ℚ) / (n_trials : ℚ)) ∧
    (∃ tp pwarns,
      runPowerArm fit htest draw test_name n_samples n_trials alpha bandwidth =
        .ok (tp, pwarns) ∧
      tp = (List.range n_trials).countP
        (fun t => trialPositive fit htest test_name alpha bandwidth
          (generate_trumpet draw n_samples (powerArmSeed t) 1)) ∧
      tp ≤ n_trials ∧ r.power = (tp : ℚ) / (n_trials : ℚ)) ∧
    0 ≤ r.empirical_size ∧ r.empirical_size ≤ 1 ∧
    0 ≤ r.power ∧ r.power ≤ 1 := by
  obtain ⟨fp, warns, tp, pwarns, hs, hp, hr, hw⟩ :=
    calibrate_test_ok fit htest draw test_name n_samples n_trials alpha bandwidth r w h
  have hsfit := sizeFold_all_fit_ok fit htest test_name alpha bandwidth
    (fun t => generate_nonlinear_homoscedastic draw n_samples (sizeArmSeed t))
    (List.range n_trials) (0, []) fp warns hs
  have hpfit := powerFold_all_fit_ok fit htest test_name alpha bandwidth
    (fun t => generate_trumpet draw n_samples (powerArmSeed t) 1)
    (List.range n_trials) (0, []) tp pwarns hp
  have hschar := sizeFold_char fit htest test_name alpha bandwidth
    (fun t => generate_nonlinear_homoscedastic draw n_samples (sizeArmSeed t))
    (List.range n_trials) hsfit (0, [])
  have hpchar := powerFold_char fit htest test_name alpha bandwidth
    (fun t => generate_trumpet draw n_samples (powerArmSeed t) 1)
    (List.range n_trials) hpfit (0, [])
  have hschar' : runSizeArm fit htest draw test_name n_samples n_trials
      alpha bandwidth = _ := hschar
  have hpchar' : runPowerArm fit htest draw test_name n_samples n_trials
      alpha bandwidth = _ := hpchar
  have hs2 := hs.symm.trans hschar'
  have hp2 := hp.symm.trans hpchar'
  injection hs2 with hs3
  injection hp2 with hp3
  have hfp : fp = (List.range n_trials).countP
      (fun t => trialPositive fit htest test_name alpha bandwidth
        (generate_nonlinear_homoscedastic draw n_samples (sizeArmSeed t))) := by
    simpa using congrArg Prod.fst hs3
  have htp : tp = (List.range n_trials).countP
      (fun t => trialPositive fit htest test_name alpha bandwidth
        (generate_trumpet draw n_samples (powerArmSeed t) 1)) := by
    simpa using congrArg Prod.fst hp3
  have hfple : fp ≤ n_trials := by
    rw [hfp]
    have h1 : (List.range n_trials).countP
        (fun t => trialPositive fit htest test_name alpha bandwidth
          (generate_nonlinear_homoscedastic draw n_samples (sizeArmSeed t))) ≤
        (List.range n_trials).length := List.countP_le_length _
    simpa using h1
  have htple : tp ≤ n_trials := by
    rw [htp]
    have h1 : (List.range n_trials).countP
        (fun t => trialPositive fit htest test_name alpha bandwidth
          (generate_trumpet draw n_samples (powerArmSeed t) 1)) ≤
        (List.range n_trials).length := List.countP_le_length _
    simpa using h1
  have hnq : (0 : ℚ) < (n_trials : ℚ) := by exact_mod_cast hn
  have hsize0 : (0 : ℚ) ≤ (fp : ℚ) / (n_trials : ℚ) :=
    div_nonneg (Nat.cast_nonneg fp) (Nat.cast_nonneg n_trials)
  have hsize1 : (fp : ℚ) / (n_trials : ℚ) ≤ 1 := by
    rw [div_le_one hnq]
    exact_mod_cast hfple
  have hpow0 : (0 : ℚ) ≤ (tp : ℚ) / (n_trials : ℚ) :=
    div_nonneg (Nat.cast_nonneg tp) (Nat.cast_nonneg n_trials)
  have hpow1 : (tp : ℚ) / (n_trials : ℚ) ≤ 1 := by
    rw [div_le_one hnq]
    exact_mod_cast htple
  subst hr
  exact ⟨⟨fp, warns, hs, hfp, hfple, rfl⟩, ⟨tp, pwarns, hp, htp, htple, rfl⟩,
    hsize0, hsize1, hpow0, hpow1⟩

/-- Concrete instance of claim C9 with one trial and no rejections. -/
theorem claim_C9_witness :
    (∃ fp warns,
      runSizeArm trivialFit trivialTest zeroDraw "white" 0 1 0.05 0.1 =
        .ok (fp, warns) ∧
      fp = (List.range 1).countP
        (fun t => trialPositive trivialFit trivialTest "white" 0.05 0.1
          (generate_nonlinear_homoscedastic zeroDraw 0 (sizeArmSeed t))) ∧
      fp ≤ 1 ∧ (nullResult "white").empirical_size = (fp : ℚ) / ((1 : ℕ) : ℚ)) ∧
    (∃ tp pwarns,
      runPowerArm trivialFit trivialTest zeroDraw "white" 0 1 0.05 0.1 =
        .ok (tp, pwarns) ∧
      tp = (List.range 1).countP
        (fun t => trialPositive trivialFit trivialTest "white" 0.05 0.1
          (generate_trumpet zeroDraw 0 (powerArmSeed t) 1)) ∧
      tp ≤ 1 ∧ (nullResult "white").power = (tp : ℚ) / ((1 : ℕ) : ℚ)) ∧
    0 ≤ (nullResult "white").empirical_size ∧
    (nullResult "white").empirical_size ≤ 1 ∧
    0 ≤ (nullResult "white").power ∧ (nullResult "white").power ≤ 1 :=
  claim_C9 trivialFit trivialTest zeroDraw "white" 0 1 0.05 0.1
    (nullResult "white") [] (by norm_num) (trivial_calibrate "white" 0 1 0.1)

/-! ### Python `max(…, key=…)` semantics. -/

/-- The running champion of Python's `max(x :: xs, key=key)` is an
element of the scanned list and its key dominates every scanned key. -/
lemma foldl_champ {α : Type} (key : α → ℚ) :
    ∀ (xs : List α) (x : α),
      ((xs.foldl (fun b r => if key b < key r then r else b) x) = x ∨
        (xs.foldl (fun b r => if key b < key r then r else b) x) ∈ xs) ∧
      key x ≤ key (xs.foldl (fun b r => if key b < key r then r else b) x) ∧
      ∀ r ∈ xs, key r ≤ key (xs.foldl (fun b r => if key b < key r then r else b) x) := by
  intro xs
  induction xs with
  | nil =>
    intro x
    exact ⟨Or.inl rfl, le_refl _, fun r hr => absurd hr (List.not_mem_nil r)⟩
  | cons y ys ih =>
    intro x
    by_cases hxy : key x < key y
    · have hfold : (y :: ys).foldl (fun b r => if key b < key r then r else b) x =
          ys.foldl (fun b r => if key b < key r then r else b) y := by
        simp [List.foldl_cons, if_pos hxy]
      obtain ⟨hmem, hge, hall⟩ := ih y
      rw [hfold]
      refine ⟨?_, le_trans (le_of_lt hxy) hge, ?_⟩
      · rcases hmem with he | hm
        · rw [he]; exact Or.inr (List.mem_cons_self y ys)
        · exact Or.inr (List.mem_cons_of_mem y hm)
      · intro r hr
        rcases List.mem_cons.mp hr with he | hm
        · rw [he]; exact hge
        · exact hall r hm
    · have hfold : (y :: ys).foldl (fun b r => if key b < key r then r else b) x =
          ys.foldl (fun b r => if key b < key r then r else b) x := by
        simp [List.foldl_cons, if_neg hxy]
      obtain ⟨hmem, hge, hall⟩ := ih x
      rw [hfold]
      refine ⟨?_, hge, ?_⟩
      · rcases hmem with he | hm
        · exact Or.inl he
        · exact Or.inr (List.mem_cons_of_mem y hm)
      · intro r hr
        rcases List.mem_cons.mp hr with he | hm
        · rw [he]; exact le_trans (le_of_not_lt hxy) hge
        · exact hall r hm

/-- `pythonMax` on a nonempty list returns an element whose key is
maximal. -/
lemma pythonMax_spec {α : Type} (key : α → ℚ) (x : α) (xs : List α) :
    ∃ b, pythonMax key (x :: xs) = some b ∧ b ∈ x :: xs ∧
      ∀ r ∈ x :: xs, key r ≤ key b := by
  obtain ⟨hmem, hge, hall⟩ := foldl_champ key xs x
  refine ⟨xs.foldl (fun b r => if key b < key r then r else b) x, rfl, ?_, ?_⟩
  · rcases hmem with he | hm
    · rw [he]; exact List.mem_cons_self x xs
    · exact List.mem_cons_of_mem x hm
  · intro r hr
    rcases List.mem_cons.mp hr with he | hm
    · rw [he]; exact hge
    · exact hall r hm

/-- Claim C4: if some result has both flags set, the selected best test
is a both-flags result maximizing `power − empirical_size`; otherwise
no best test exists and the oversized diagnostic group consists exactly
of the results with `size_calibrated = false`. -/
theorem claim_C4 (results : List CalibrationResult) :
    ((∃ r ∈ results, r.size_calibrated = true ∧ r.power_adequate = true) →
      ∃ b, bestTest results = some b ∧ b ∈ results ∧ b.size_calibrated = true ∧
        b.power_adequate = true ∧
        ∀ r ∈ results, r.size_calibrated = true → r.power_adequate = true →
          r.power - r.empirical_size ≤ b.power - b.empirical_size) ∧
    ((¬∃ r ∈ results, r.size_calibrated = true ∧ r.power_adequate = true) →
      bestTest results = none ∧
      ∀ r, r ∈ oversizedTests results ↔ r ∈ results ∧ r.size_calibrated = false) := by
  constructor
  · rintro ⟨r0, hr0, hs0, hp0⟩
    have hr0p : r0 ∈ passingTests results :=
      List.mem_filter.mpr ⟨hr0, by simp [hs0, hp0]⟩
    cases hpass : passingTests results with
    | nil => rw [hpass] at hr0p; cases hr0p
    | cons x xs =>
      obtain ⟨b, hb, hbmem, hbmax⟩ :=
        pythonMax_spec (fun r => r.power - r.empirical_size) x xs
      have hbpass : b ∈ passingTests results := hpass ▸ hbmem
      have hbfilter := List.mem_filter.mp hbpass
      have hbflags : b.size_calibrated = true ∧ b.power_adequate = true := by
        have := hbfilter.2
        simpa [Bool.and_eq_true] using this
      refine ⟨b, ?_, hbfilter.1, hbflags.1, hbflags.2, ?_⟩
      · rw [bestTest, hpass]
        exact hb
      · intro r hr hrs hrp
        have hrpass : r ∈ passingTests results :=
          List.mem_filter.mpr ⟨hr, by simp [hrs, hrp]⟩
        rw [hpass] at hrpass
        exact hbmax r hrpass
  · intro hnone
    have hpass : passingTests results = [] := by
      cases hpass2 : passingTests results with
      | nil => rfl
      | cons x xs =>
        exfalso
        have hx : x ∈ passingTests results := by
          rw [hpass2]; exact List.mem_cons_self x xs
        have hfil := List.mem_filter.mp hx
        have hflags : x.size_calibrated = true ∧ x.power_adequate = true := by
          have := hfil.2
          simpa [Bool.and_eq_true] using this
        exact hnone ⟨x, hfil.1, hflags⟩
    refine ⟨by rw [bestTest, hpass]; rfl, ?_⟩
    · intro r
      rw [oversizedTests, List.mem_filter]
      simp

/-- The illustrative result R1(size 0.05, power 0.85). -/
def exampleR1 : CalibrationResult := ⟨"breusch_pagan", 0.05, 5 / 100, true, 85 / 100, true⟩

/-- The illustrative result R2(size 0.06, power 0.90). -/
def exampleR2 : CalibrationResult := ⟨"white", 0.05, 6 / 100, true, 9 / 10, true⟩

/-- Concrete instance of claim C4: between R1(0.05, 0.85) and
R2(0.06, 0.90) the selection returns R2. -/
theorem claim_C4_witness :
    bestTest [exampleR1, exampleR2] = some exampleR2 ∧
    (∃ b, bestTest [exampleR1, exampleR2] = some b ∧ b ∈ [exampleR1, exampleR2] ∧
      b.size_calibrated = true ∧ b.power_adequate = true ∧
      ∀ r ∈ [exampleR1, exampleR2], r.size_calibrated = true →
        r.power_adequate = true →
        r.power - r.empirical_size ≤ b.power - b.empirical_size) := by
  constructor
  · have h1 : passingTests [exampleR1, exampleR2] = [exampleR1, exampleR2] := by
      simp [passingTests, exampleR1, exampleR2]
    rw [bestTest, h1]
    show some (if exampleR1.power - exampleR1.empirical_size <
        exampleR2.power - exampleR2.empirical_size then exampleR2 else exampleR1) =
      some exampleR2
    rw [if_pos]
    show exampleR1.power - exampleR1.empirical_size <
      exampleR2.power - exampleR2.empirical_size
    norm_num [exampleR1, exampleR2]
  · exact (claim_C4 [exampleR1, exampleR2]).1
      ⟨exampleR1, List.mem_cons_self _ _, rfl, rfl⟩

/-- The always-raising test yields a negative verdict in the tally. -/
lemma errorTest_positive (test_name : String) (alpha bandwidth : ℝ)
    (D : List ℝ × List ℝ) :
    trialPositive trivialFit errorTest test_name alpha bandwidth D = false := rfl

/-- The always-raising test produces the diagnostic `(t, "boom")`. -/
lemma errorTest_warn (test_name : String) (alpha bandwidth : ℝ)
    (D : List ℝ × List ℝ) (t : ℕ) :
    trialWarn trivialFit errorTest test_name alpha bandwidth D t =
      some (t, "boom") := rfl

/-- Claim C5 (amended): on the calibration path a trial whose TEST step
raises is caught and tallied as a non-rejection; the size arm logs one
`(trial, message)` diagnostic per such failure, while the power arm logs
nothing; a FIT failure is not caught (see the counterexample); and on
the sweep path nothing is caught — a returned tally implies every
trial's fit and test steps returned normally. -/
theorem claim_C5 {M : Type} (fit : List ℝ → List ℝ → ℝ → Except String M)
    (htest : M → List ℝ → List ℝ → String → ℝ → Except String Bool)
    (draw : ℕ → ℕ → ℝ) (test_name : String) (n_samples n_trials : ℕ)
    (alpha bandwidth : ℝ)
    (hfit : ∀ X y : List ℝ, ∃ m, fit X y bandwidth = .ok m) :
    runSizeArm fit htest draw test_name n_samples n_trials alpha bandwidth =
      .ok ((List.range n_trials).countP
            (fun t => trialPositive fit htest test_name alpha bandwidth
              (generate_nonlinear_homoscedastic draw n_samples (sizeArmSeed t))),
           (List.range n_trials).filterMap
            (fun t => trialWarn fit htest test_name alpha bandwidth
              (generate_nonlinear_homoscedastic draw n_samples (sizeArmSeed t)) t)) ∧
    runPowerArm fit htest draw test_name n_samples n_trials alpha bandwidth =
      .ok ((List.range n_trials).countP
            (fun t => trialPositive fit htest test_name alpha bandwidth
              (generate_trumpet draw n_samples (powerArmSeed t) 1)), []) ∧
    (∀ t e m, t < n_trials →
      fit (generate_nonlinear_homoscedastic draw n_samples (sizeArmSeed t)).1
        (generate_nonlinear_homoscedastic draw n_samples (sizeArmSeed t)).2
        bandwidth = .ok m →
      htest m (generate_nonlinear_homoscedastic draw n_samples (sizeArmSeed t)).1
        (generate_nonlinear_homoscedastic draw n_samples (sizeArmSeed t)).2
        test_name alpha = .error e →
      (t, e) ∈ (List.range n_trials).filterMap
        (fun t => trialWarn fit htest test_name alpha bandwidth
          (generate_nonlinear_homoscedastic draw n_samples (sizeArmSeed t)) t)) ∧
    (∀ (strength : ℚ) (d : ℕ),
      sweepDetections fit htest draw test_name strength n_samples n_trials
        alpha bandwidth = .ok d →
      ∀ t, t < n_trials →
        trialOk fit htest test_name alpha bandwidth
          (if strength = 0 then generate_nonlinear_homoscedastic draw n_samples t
           else generate_trumpet draw n_samples t (strength : ℝ))) := by
  refine ⟨?_, ?_, ?_, ?_⟩
  · have h := sizeFold_char fit htest test_name alpha bandwidth
      (fun t => generate_nonlinear_homoscedastic draw n_samples (sizeArmSeed t))
      (List.range n_trials) (fun t _ => hfit _ _) (0, [])
    simpa [runSizeArm] using h
  · have h := powerFold_char fit htest test_name alpha bandwidth
      (fun t => generate_trumpet draw n_samples (powerArmSeed t) 1)
      (List.range n_trials) (fun t _ => hfit _ _) (0, [])
    simpa [runPowerArm] using h
  · intro t e m ht hm hte
    refine List.mem_filterMap.mpr ⟨t, List.mem_range.mpr ht, ?_⟩
    simp [trialWarn, hm, hte]
  · intro strength d hsweep t ht
    have h2 : (List.range n_trials).foldlM
        (sweepStep fit htest test_name alpha bandwidth
          (fun t => if strength = 0
            then generate_nonlinear_homoscedastic draw n_samples t
            else generate_trumpet draw n_samples t (strength : ℝ))) 0 =
        .ok d := hsweep
    exact sweepFold_all_ok fit htest test_name alpha bandwidth _
      (List.range n_trials) 0 d h2 t (List.mem_range.mpr ht)

/-- Claim C5 fails as stated: a fit failure is NOT caught on the
calibration path (the whole call aborts), and a power-arm test failure
is caught but emits NO diagnostic — the returned log holds only the
size-arm entry `(0, "boom")` although the power arm's trial 0 also
raised `"boom"`. -/
theorem claim_C5_counterexample :
    calibrate_test errorFit trivialTest zeroDraw "white" 0 1 0.05 0.1 =
      .error "fit failed" ∧
    calibrate_test trivialFit errorTest zeroDraw "white" 0 1 0.05 0.1 =
      .ok (⟨"white", 0.05, 0, false, 0, false⟩, [(0, "boom")]) := by
  constructor
  · rfl
  · have hs : runSizeArm trivialFit errorTest zeroDraw "white" 0 1 0.05 0.1 =
        .ok (0, [(0, "boom")]) := by
      have h := sizeFold_char trivialFit errorTest "white" 0.05 0.1
        (fun t => generate_nonlinear_homoscedastic zeroDraw 0 (sizeArmSeed t))
        (List.range 1) (fun t _ => ⟨(), rfl⟩) (0, [])
      simp only [errorTest_positive, errorTest_warn, List.countP_false] at h
      simpa [runSizeArm, List.range_succ] using h
    have hp : runPowerArm trivialFit errorTest zeroDraw "white" 0 1 0.05 0.1 =
        .ok (0, []) := by
      have h := powerFold_char trivialFit errorTest "white" 0.05 0.1
        (fun t => generate_trumpet zeroDraw 0 (powerArmSeed t) 1)
        (List.range 1) (fun t _ => ⟨(), rfl⟩) (0, [])
      simp only [errorTest_positive, List.countP_false] at h
      simpa [runPowerArm] using h
    have h := calibrate_test_eq trivialFit errorTest zeroDraw "white" 0 1
      0.05 0.1 0 0 [(0, "boom")] [] hs hp
    simpa [sizeCalibratedBand_zero, powerAdequateFlag_zero] using h

/-- Concrete instance of the amended claim C5: the always-raising test
capability with one trial. -/
theorem claim_C5_witness :
    runSizeArm trivialFit errorTest zeroDraw "white" 0 1 0.05 0.1 =
      .ok ((List.range 1).countP
            (fun t => trialPositive trivialFit errorTest "white" 0.05 0.1
              (generate_nonlinear_homoscedastic zeroDraw 0 (sizeArmSeed t))),
           (List.range 1).filterMap
            (fun t => trialWarn trivialFit errorTest "white" 0.05 0.1
              (generate_nonlinear_homoscedastic zeroDraw 0 (sizeArmSeed t)) t)) ∧
    runPowerArm trivialFit errorTest zeroDraw "white" 0 1 0.05 0.1 =
      .ok ((List.range 1).countP
            (fun t => trialPositive trivialFit errorTest "white" 0.05 0.1
              (generate_trumpet zeroDraw 0 (powerArmSeed t) 1)), []) ∧
    (∀ t e m, t < 1 →
      trivialFit (generate_nonlinear_homoscedastic zeroDraw 0 (sizeArmSeed t)).1
        (generate_nonlinear_homoscedastic zeroDraw 0 (sizeArmSeed t)).2
        0.1 = .ok m →
      errorTest m (generate_nonlinear_homoscedastic zeroDraw 0 (sizeArmSeed t)).1
        (generate_nonlinear_homoscedastic zeroDraw 0 (sizeArmSeed t)).2
        "white" 0.05 = .error e →
      (t, e) ∈ (List.range 1).filterMap
        (fun t => trialWarn trivialFit errorTest "white" 0.05 0.1
          (generate_nonlinear_homoscedastic zeroDraw 0 (sizeArmSeed t)) t)) ∧
    (∀ (strength : ℚ) (d : ℕ),
      sweepDetections trivialFit errorTest zeroDraw "white" strength 0 1
        0.05 0.1 = .ok d →
      ∀ t, t < 1 →
        trialOk trivialFit errorTest "white" 0.05 0.1
          (if strength = 0 then generate_nonlinear_homoscedastic zeroDraw 0 t
           else generate_trumpet zeroDraw 0 t (strength : ℝ))) :=
  claim_C5 trivialFit errorTest zeroDraw "white" 0 1 0.05 0.1
    (fun X y => ⟨(), rfl⟩)

/-- Claim C6: whenever the sweep at strength 0 returns a tally and the
same-parameter calibration returns a result, the sweep's detection rate
equals the calibration's empirical size. -/
theorem claim_C6 {M : Type} (fit : List ℝ → List ℝ → ℝ → Except String M)
    (htest : M → List ℝ → List ℝ → String → ℝ → Except String Bool)
    (draw : ℕ → ℕ → ℝ) (test_name : String) (n_samples n_trials : ℕ)
    (alpha bandwidth : ℝ) (d : ℕ) (r : CalibrationResult)
    (w : List (ℕ × String))
    (hsweep : sweepDetections fit htest draw test_name 0 n_samples n_trials
      alpha bandwidth = .ok d)
    (hcal : calibrate_test fit htest draw test_name n_samples n_trials
      alpha bandwidth = .ok (r, w)) :
    (d : ℚ) / (n_trials : ℚ) = r.empirical_size := by
  obtain ⟨fp, warns, tp, pwarns, hsz, hpw, hr, hw⟩ :=
    calibrate_test_ok fit htest draw test_name n_samples n_trials
      alpha bandwidth r w hcal
  have hsw : (List.range n_trials).foldlM
      (sweepStep fit htest test_name alpha bandwidth
        (fun t => generate_nonlinear_homoscedastic draw n_samples t)) 0 =
      .ok d := by
    have hfun : (fun t => if (0 : ℚ) = 0
        then generate_nonlinear_homoscedastic draw n_samples t
        else generate_trumpet draw n_samples t ((0 : ℚ) : ℝ)) =
        (fun t => generate_nonlinear_homoscedastic draw n_samples t) :=
      funext (fun t => if_pos rfl)
    have h2 : (List.range n_trials).foldlM
        (sweepStep fit htest test_name alpha bandwidth
          (fun t => if (0 : ℚ) = 0
            then generate_nonlinear_homoscedastic draw n_samples t
            else generate_trumpet draw n_samples t ((0 : ℚ) : ℝ))) 0 =
        .ok d := hsweep
    rwa [hfun] at h2
  have hallok := sweepFold_all_ok fit htest test_name alpha bandwidth
    (fun t => generate_nonlinear_homoscedastic draw n_samples t)
    (List.range n_trials) 0 d hsw
  have hswchar := sweepFold_char fit htest test_name alpha bandwidth
    (fun t => generate_nonlinear_homoscedastic draw n_samples t)
    (List.range n_trials) hallok 0
  rw [hsw] at hswchar
  injection hswchar with hd
  have hfit : ∀ t ∈ List.range n_trials, ∃ m,
      fit (generate_nonlinear_homoscedastic draw n_samples (sizeArmSeed t)).1
        (generate_nonlinear_homoscedastic draw n_samples (sizeArmSeed t)).2
        bandwidth = .ok m := by
    intro t ht
    obtain ⟨m, b, hm, _⟩ := hallok t ht
    exact ⟨m, hm⟩
  have hschar := sizeFold_char fit htest test_name alpha bandwidth
    (fun t => generate_nonlinear_homoscedastic draw n_samples (sizeArmSeed t))
    (List.range n_trials) hfit (0, [])
  have hschar' : runSizeArm fit htest draw test_name n_samples n_trials
      alpha bandwidth = _ := hschar
  have h3 := hsz.symm.trans hschar'
  injection h3 with h4
  have hfp : fp = (List.range n_trials).countP
      (fun t => trialPositive fit htest test_name alpha bandwidth
        (generate_nonlinear_homoscedastic draw n_samples (sizeArmSeed t))) := by
    simpa using congrArg Prod.fst h4
  have hseed : (fun t => trialPositive fit htest test_name alpha bandwidth
      (generate_nonlinear_homoscedastic draw n_samples (sizeArmSeed t))) =
      (fun t => trialPositive fit htest test_name alpha bandwidth
        (generate_nonlinear_homoscedastic draw n_samples t)) :=
    funext (fun t => rfl)
  rw [hr]
  show (d : ℚ) / (n_trials : ℚ) = (fp : ℚ) / (n_trials : ℚ)
  rw [hfp, hseed, hd]
  simp

/-- Concrete instance of claim C6 under the trivial capabilities. -/
theorem claim_C6_witness :
    ((0 : ℕ) : ℚ) / ((1 : ℕ) : ℚ) = (nullResult "white").empirical_size :=
  claim_C6 trivialFit trivialTest zeroDraw "white" 0 1 0.05 0.1 0
    (nullResult "white") []
    (by
      have hok : ∀ t ∈ List.range 1,
          trialOk trivialFit trivialTest "white" 0.05 0.1
            ((fun t => if (0 : ℚ) = 0
              then generate_nonlinear_homoscedastic zeroDraw 0 t
              else generate_trumpet zeroDraw 0 t ((0 : ℚ) : ℝ)) t) :=
        fun t _ => ⟨(), false, rfl, rfl⟩
      have h := sweepFold_char trivialFit trivialTest "white" 0.05 0.1
        (fun t => if (0 : ℚ) = 0
          then generate_nonlinear_homoscedastic zeroDraw 0 t
          else generate_trumpet zeroDraw 0 t ((0 : ℚ) : ℝ))
        (List.range 1) hok 0
      have hpos : ∀ t : ℕ, trialPositive trivialFit trivialTest "white" 0.05 0.1
          ((fun t => if (0 : ℚ) = 0
            then generate_nonlinear_homoscedastic zeroDraw 0 t
            else generate_trumpet zeroDraw 0 t ((0 : ℚ) : ℝ)) t) = false :=
        fun t => rfl
      simp only [hpos, List.countP_false] at h
      simpa [sweepDetections] using h)
    (trivial_calibrate "white" 0 1 0.1)

/-- Claim C7: each generator's output is independent of the incoming
global RNG state (reseeding makes it a pure function of its arguments),
and a difference in the seeded noise streams at any in-range index is
preserved in the responses (the noise scales are strictly positive, for
a nonnegative strength). -/
theorem claim_C7 (draw : ℕ → ℕ → ℝ) (advance : ℕ → ℕ → ℕ)
    (n seed seed1 seed2 : ℕ) (strength : ℝ) (i st st' : ℕ)
    (hi : i < n) (hstr : 0 ≤ strength)
    (hdiff : draw seed1 i ≠ draw seed2 i) :
    generateNullWithState draw advance n seed st =
      generateNullWithState draw advance n seed st' ∧
    generateTrumpetWithState draw advance n seed strength st =
      generateTrumpetWithState draw advance n seed strength st' ∧
    (generate_nonlinear_homoscedastic draw n seed1).2.get? i ≠
      (generate_nonlinear_homoscedastic draw n seed2).2.get? i ∧
    (generate_trumpet draw n seed1 strength).2.get? i ≠
      (generate_trumpet draw n seed2 strength).2.get? i := by
  refine ⟨rfl, rfl, ?_, ?_⟩
  · rw [genNull_get draw n seed1 i hi, genNull_get draw n seed2 i hi]
    intro h
    injection h with h2
    exact hdiff (mul_right_cancel₀ (by norm_num) (add_left_cancel h2))
  · rw [genTrumpet_get draw n seed1 i strength hi,
      genTrumpet_get draw n seed2 i strength hi]
    intro h
    injection h with h2
    have hscale : (0 : ℝ) < 0.1 + strength * linspacePoint n i := by
      have hx := linspacePoint_nonneg n i
      have hmul : 0 ≤ strength * linspacePoint n i := mul_nonneg hstr hx
      linarith
    exact hdiff (mul_right_cancel₀ (ne_of_gt hscale) (add_left_cancel h2))

/-- Concrete instance of claim C7: the stream `draw s i = s` separates
seeds 0 and 1 at index 0 of a one-point dataset. -/
theorem claim_C7_witness :
    generateNullWithState (fun s _ => (s : ℝ)) (fun s _ => s) 1 0 0 =
      generateNullWithState (fun s _ => (s : ℝ)) (fun s _ => s) 1 0 1 ∧
    generateTrumpetWithState (fun s _ => (s : ℝ)) (fun s _ => s) 1 0 1 0 =
      generateTrumpetWithState (fun s _ => (s : ℝ)) (fun s _ => s) 1 0 1 1 ∧
    (generate_nonlinear_homoscedastic (fun s _ => (s : ℝ)) 1 0).2.get? 0 ≠
      (generate_nonlinear_homoscedastic (fun s _ => (s : ℝ)) 1 1).2.get? 0 ∧
    (generate_trumpet (fun s _ => (s : ℝ)) 1 0 1).2.get? 0 ≠
      (generate_trumpet (fun s _ => (s : ℝ)) 1 1 1).2.get? 0 :=
  claim_C7 (fun s _ => (s : ℝ)) (fun s _ => s) 1 0 0 1 1 0 0 1
    (by norm_num) (by norm_num) (by norm_num)

/-- Claim C8 (amended): the size arm seeds trial `t` with `t` and the
power arm with `t + 100000`; the two arms' seed sets are disjoint for
every `n_trials ≤ 100000` (the offset is finite, so larger trial counts
overlap — see the counterexample). -/
theorem claim_C8 (n_trials t1 t2 : ℕ) (hb : n_trials ≤ 100000)
    (h1 : t1 < n_trials) (h2 : t2 < n_trials) :
    sizeArmSeed t1 = t1 ∧ powerArmSeed t2 = t2 + 100000 ∧
    sizeArmSeed t1 ≠ powerArmSeed t2 := by
  refine ⟨rfl, rfl, ?_⟩
  simp only [sizeArmSeed, powerArmSeed]
  omega

/-- Claim C8 fails as stated for every `n_trials`: with
`n_trials = 100001` the size arm's trial 100000 and the power arm's
trial 0 use the same seed. -/
theorem claim_C8_counterexample :
    100000 < 100001 ∧ 0 < 100001 ∧ sizeArmSeed 100000 = powerArmSeed 0 := by
  refine ⟨by norm_num, by norm_num, ?_⟩
  simp [sizeArmSeed, powerArmSeed]

/-- Concrete instance of the amended claim C8 at `n_trials = 1`. -/
theorem claim_C8_witness :
    sizeArmSeed 0 = 0 ∧ powerArmSeed 0 = 0 + 100000 ∧
    sizeArmSeed 0 ≠ powerArmSeed 0 :=
  claim_C8 1 0 0 (by norm_num) (by norm_num) (by norm_num)

set_option maxRecDepth 4000 in
/-- Claim C10: a successful full calibration ran `calibrate_test` for
exactly `"breusch_pagan"`, `"white"`, `"dette_munk_wagner"` in that
order (with `n_samples = 200`, `n_trials = 500`), returned their results
in that order, and never calibrated `"goldfeld_quandt"`. -/
theorem claim_C10 {M : Type} (fit : List ℝ → List ℝ → ℝ → Except String M)
    (htest : M → List ℝ → List ℝ → String → ℝ → Except String Bool)
    (draw : ℕ → ℕ → ℝ) (rs : List CalibrationResult)
    (h : run_full_calibration fit htest draw = .ok rs) :
    calibrationTests = ["breusch_pagan", "white", "dette_munk_wagner"] ∧
    (∃ r1 w1 r2 w2 r3 w3,
      calibrate_test fit htest draw "breusch_pagan" 200 500 0.05 0.1 =
        .ok (r1, w1) ∧
      calibrate_test fit htest draw "white" 200 500 0.05 0.1 = .ok (r2, w2) ∧
      calibrate_test fit htest draw "dette_munk_wagner" 200 500 0.05 0.1 =
        .ok (r3, w3) ∧
      rs = [r1, r2, r3]) ∧
    rs.map CalibrationResult.test_name =
      ["breusch_pagan", "white", "dette_munk_wagner"] ∧
    "goldfeld_quandt" ∉ rs.map CalibrationResult.test_name := by
  unfold run_full_calibration calibrationTests at h
  simp only [List.foldlM_cons, List.foldlM_nil] at h
  cases E1 : calibrate_test fit htest draw "breusch_pagan" 200 500 0.05 0.1 with
  | error e =>
    rw [E1] at h
    simp only [except_map_error, except_bind_error] at h
    exact Except.noConfusion h
  | ok p1 =>
    rw [E1] at h
    simp only [except_map_ok, except_bind_ok] at h
    cases E2 : calibrate_test fit htest draw "white" 200 500 0.05 0.1 with
    | error e =>
      rw [E2] at h
      simp only [except_map_error, except_bind_error] at h
      exact Except.noConfusion h
    | ok p2 =>
      rw [E2] at h
      simp only [except_map_ok, except_bind_ok] at h
      cases E3 : calibrate_test fit htest draw "dette_munk_wagner" 200 500 0.05 0.1 with
      | error e =>
        rw [E3] at h
        simp only [except_map_error, except_bind_error] at h
        exact Except.noConfusion h
      | ok p3 =>
        rw [E3] at h
        simp only [except_map_ok, except_bind_ok, except_pure_eq_ok] at h
        have hrs : rs = [p1.1, p2.1, p3.1] := by
          injection h with h3
          simpa using h3.symm
        obtain ⟨fa, wa, ta, pa, hsa, hpa, hra, hwa⟩ :=
          calibrate_test_ok fit htest draw "breusch_pagan" 200 500 0.05 0.1
            p1.1 p1.2 E1
        obtain ⟨fb, wb, tb, pb, hsb, hpb, hrb, hwb⟩ :=
          calibrate_test_ok fit htest draw "white" 200 500 0.05 0.1
            p2.1 p2.2 E2
        obtain ⟨fc, wc, tc, pc, hsc, hpc, hrc, hwc⟩ :=
          calibrate_test_ok fit htest draw "dette_munk_wagner" 200 500 0.05 0.1
            p3.1 p3.2 E3
        have hn1 : p1.1.test_name = "breusch_pagan" := by rw [hra]
        have hn2 : p2.1.test_name = "white" := by rw [hrb]
        have hn3 : p3.1.test_name = "dette_munk_wagner" := by rw [hrc]
        refine ⟨rfl, ⟨p1.1, p1.2, p2.1, p2.2, p3.1, p3.2, rfl, rfl, rfl, hrs⟩,
          ?_, ?_⟩
        · rw [hrs]
          simp [hn1, hn2, hn3]
        · rw [hrs]
          simp [hn1, hn2, hn3]

/-- The full suite under the trivial capabilities: three all-zero
results, in the fixed order. -/
lemma trivial_run_full :
    run_full_calibration trivialFit trivialTest zeroDraw =
      .ok [nullResult "breusch_pagan", nullResult "white",
           nullResult "dette_munk_wagner"] := by
  unfold run_full_calibration calibrationTests
  simp only [List.foldlM_cons, List.foldlM_nil, trivial_calibrate,
    except_map_ok, except_bind_ok, except_pure_eq_ok]
  simp

/-- Concrete instance of claim C10 under the trivial capabilities. -/
theorem claim_C10_witness :
    calibrationTests = ["breusch_pagan", "white", "dette_munk_wagner"] ∧
    (∃ r1 w1 r2 w2 r3 w3,
      calibrate_test trivialFit trivialTest zeroDraw "breusch_pagan"
        200 500 0.05 0.1 = .ok (r1, w1) ∧
      calibrate_test trivialFit trivialTest zeroDraw "white"
        200 500 0.05 0.1 = .ok (r2, w2) ∧
      calibrate_test trivialFit trivialTest zeroDraw "dette_munk_wagner"
        200 500 0.05 0.1 = .ok (r3, w3) ∧
      [nullResult "breusch_pagan", nullResult "white",
        nullResult "dette_munk_wagner"] = [r1, r2, r3]) ∧
    [nullResult "breusch_pagan", nullResult "white",
      nullResult "dette_munk_wagner"].map CalibrationResult.test_name =
      ["breusch_pagan", "white", "dette_munk_wagner"] ∧
    "goldfeld_quandt" ∉ [nullResult "breusch_pagan", nullResult "white",
      nullResult "dette_munk_wagner"].map CalibrationResult.test_name :=
  claim_C10 trivialFit trivialTest zeroDraw
    [nullResult "breusch_pagan", nullResult "white",
      nullResult "dette_munk_wagner"]
    trivial_run_full

end HeteroCalib
